import Mathlib

/-!
Verification development for the battery-checker repository.

The repository periodically scrapes a dashboard and reports, per named site,
a connection ratio "N/M".  This file gives a shallow embedding of the pure
core of the scripts:

* the ratio-extraction policy `_extract_exact_ratio` (regex
  `\b(\d+)\s*/\s*(\d+)\b` over the text, exact-denominator filter, sane
  preference, maximum numerator),
* a document model (rose tree of elements with tag, class, own text and a
  bounding rectangle) together with the card-locating climb and the two
  site-check fallback chains (`02.09 all most sites.py` and the popup
  variant of `04.09 ALL site with popup.py`),
* the simple per-site extractor `get_nm_for_site` of the unnamed source
  file (`Auto_check Last 5 sites.py`),
* the cycle runner `check_all_sites_once`, the alerter
  `popup_disconnected`, the inter-cycle wait computation and the
  1-second step sleep loop `sleep_with_stop`.

Machine integers of the scripts are Python unbounded integers, so they are
modelled as `Nat`/`Int` directly.  Raised exceptions are modelled as `none`
results.  Word characters and whitespace are modelled at ASCII precision
(the regexes of the scripts are only ever applied to dashboard text).
-/

/-! ## Character classes (ASCII model of Python's `\w`, `\s`, `str.lower`) -/

/-- ASCII model of a regex word character (`\w`): letter, digit or `_`. -/
def isWordChar (c : Char) : Bool := c.isAlphanum || c == '_'

/-- ASCII model of regex whitespace (`\s`) and Python `str.split()`/`strip()`
whitespace: space, tab, LF, CR, vertical tab, form feed. -/
def isPySpace (c : Char) : Bool :=
  c == ' ' || c == '\t' || c == '\n' || c == '\r' || c == '\x0b' || c == '\x0c'

/-- ASCII lowercasing of a character, as the scripts' XPath `translate(…,
'ABCDEFGHIJKLMNOPQRSTUVWXYZ','abcdefghijklmnopqrstuvwxyz')` and Python
`str.lower()` behave on the ASCII site labels. -/
def lowerChar (c : Char) : Char :=
  if 65 ≤ c.toNat && c.toNat ≤ 90 then Char.ofNat (c.toNat + 32) else c

/-- ASCII lowercase of a string. -/
def lowerStr (s : String) : String := ⟨s.data.map lowerChar⟩

/-- `leadsWith s pat` holds when `pat` is an initial run of `s`. -/
def leadsWith : List Char → List Char → Bool
  | _, [] => true
  | [], _ :: _ => false
  | c :: cs, p :: ps => c == p && leadsWith cs ps

/-- Substring containment test: `hasSub pat s` is Python's `pat in s`. -/
def hasSub (pat : List Char) : List Char → Bool
  | [] => pat.isEmpty
  | c :: cs => leadsWith (c :: cs) pat || hasSub pat cs

/-- Substring containment on strings (Python `pat in s`, XPath `contains`). -/
def hasSubStr (pat s : String) : Bool := hasSub pat.data s.data

/-- Accumulator pass of `pyWords`: groups maximal runs of non-whitespace. -/
def pyWordsAux : List Char → List Char → List (List Char)
  | [], acc => if acc.isEmpty then [] else [acc.reverse]
  | c :: cs, acc =>
    if isPySpace c then
      if acc.isEmpty then pyWordsAux cs [] else acc.reverse :: pyWordsAux cs []
    else pyWordsAux cs (c :: acc)

/-- Python `s.split()`: whitespace-separated words, empty runs dropped. -/
def pyWords (l : List Char) : List (List Char) := pyWordsAux l []

/-- Whitespace normalisation: XPath `normalize-space(…)` and Python
`" ".join(s.split())` — trim and collapse internal whitespace runs. -/
def normWs (s : String) : String := ⟨List.intercalate [' '] (pyWords s.data)⟩

/-- Python `s.strip()`: drop leading and trailing whitespace. -/
def pyStrip (s : String) : String :=
  ⟨((s.data.dropWhile isPySpace).reverse.dropWhile isPySpace).reverse⟩

/-! ## The ratio regex `\b(\d+)\s*/\s*(\d+)\b`

`re.findall` scans left to right; at each position it tries the pattern
and on success resumes after the match (matches do not overlap).  The
pattern forces: a word boundary, then a maximal digit run, optional
whitespace, `/`, optional whitespace, a maximal digit run, then a word
boundary (the next character, if any, is not a word character).  The
greedy digit runs admit no useful backtracking because the character
after a shortened run would be a digit, which can match neither `\s*`
followed by `/` nor a closing word boundary. -/

/-- Numeric value of a digit run (`int` applied to the matched group). -/
def digitsToNat (ds : List Char) : Nat :=
  ds.foldl (fun a c => a * 10 + (c.toNat - 48)) 0

/-- Closing `\b`: the next character, if any, is not a word character. -/
def boundaryAfter : List Char → Bool
  | [] => true
  | c :: _ => !isWordChar c

/-- Try the ratio pattern at the current position (which the caller has
already checked to start a digit run at a word boundary).  Returns the two
numbers and the rest of the input after the match. -/
def tryMatchRatio (l : List Char) : Option (Nat × Nat × List Char) :=
  let ds1 := l.takeWhile Char.isDigit
  if ds1.isEmpty then none
  else
    match (l.dropWhile Char.isDigit).dropWhile isPySpace with
    | '/' :: r2 =>
      let r3 := r2.dropWhile isPySpace
      let ds2 := r3.takeWhile Char.isDigit
      if ds2.isEmpty then none
      else
        let r4 := r3.dropWhile Char.isDigit
        if boundaryAfter r4 then some (digitsToNat ds1, digitsToNat ds2, r4) else none
    | _ => none

/-- The scan of `re.findall`.  `prevWord` records whether the previous
character was a word character (for the opening `\b`).  The fuel only
bounds the iteration count: every step consumes at least one character,
so fuel equal to the input length never runs out. -/
def scanFuel : Nat → Bool → List Char → List (Nat × Nat)
  | 0, _, _ => []
  | _ + 1, _, [] => []
  | fuel + 1, prevWord, c :: rest =>
    if prevWord || !c.isDigit then scanFuel fuel (isWordChar c) rest
    else
      match tryMatchRatio (c :: rest) with
      | some (n, d, r) => (n, d) :: scanFuel fuel true r
      | none => scanFuel fuel (isWordChar c) rest

/-- `re.findall(r'\b(\d+)\s*/\s*(\d+)\b', s)` as a list of number pairs. -/
def pyFindall (s : String) : List (Nat × Nat) := scanFuel s.data.length false s.data

/-! ## `_extract_exact_ratio` (02.09 lines 162–175, 04.09 lines 142–155) -/

/-- The pairs of the text whose denominator equals `expected_total`
(the list `exact` of `_extract_exact_ratio`). -/
def exactPairs (text : String) (et : Nat) : List (Nat × Nat) :=
  (pyFindall text).filter (fun p => p.2 == et)

/-- The exact-denominator pairs whose numerator is within the sane range
(the list `sane` of `_extract_exact_ratio`). -/
def sanePairs (text : String) (et : Nat) : List (Nat × Nat) :=
  (exactPairs text et).filter (fun p => decide (p.1 ≤ et))

/-- Python `max(…, key=lambda p: p[0])` over a non-empty list `c :: l`:
keep the current maximum, replacing it only on a strictly larger key, so
ties keep the earliest element. -/
def pyMax (c : Nat × Nat) : List (Nat × Nat) → Nat × Nat
  | [] => c
  | p :: t => pyMax (if c.1 < p.1 then p else c) t

/-- `_extract_exact_ratio(text, expected_total)`: `None` on empty text, all
`N/D` regex matches, keep exact denominators, prefer the sane subset
(`numerator ≤ expected_total`), return the maximal numerator; `None` when no
exact-denominator pair exists.  The Python function returns the string
`f"{n}/{d}"`; callers immediately split it back into the two integers, so
the model returns the pair. -/
def extract_exact_ratio (text : String) (et : Nat) : Option (Nat × Nat) :=
  if text = "" then none
  else
    match exactPairs text et with
    | [] => none
    | e :: es =>
      match (e :: es).filter (fun p => decide (p.1 ≤ et)) with
      | [] => some (pyMax e es)
      | s :: ss => some (pyMax s ss)


/-! ## Document model

The scripts consume an already-rendered page through Selenium.  A document
is modelled as a rose tree of elements.  Each element carries its tag name,
its `class` attribute, its direct ("own") text, and the width and height of
its bounding rectangle.  `//*` enumerations are document (pre-) order;
`ancestor::*[1]` is the immediate parent; `normalize-space(text())` is the
whitespace-normalised own text; `innerText`/`.text` is the whitespace-joined
text of the whole subtree (`fullText` below).  A `DomList` is used instead
of `List Dom` so that all tree functions are plain structural recursions. -/

mutual

inductive Dom where
  | node (tag cls ownText : String) (w h : Nat) (children : DomList)

inductive DomList where
  | nil
  | cons (d : Dom) (ds : DomList)

end

/-- Build a `DomList` from a list. -/
def domListOf : List Dom → DomList
  | [] => .nil
  | d :: ds => .cons d (domListOf ds)

/-- Convenient element constructor. -/
def el (tag cls ownText : String) (w h : Nat) (ch : List Dom) : Dom :=
  .node tag cls ownText w h (domListOf ch)

/-- Tag name of an element. -/
def Dom.tag : Dom → String
  | .node t _ _ _ _ _ => t

/-- `class` attribute of an element. -/
def Dom.cls : Dom → String
  | .node _ c _ _ _ _ => c

/-- Direct text of an element (its `text()` nodes). -/
def Dom.ownText : Dom → String
  | .node _ _ o _ _ _ => o

/-- Width of the element's bounding rectangle (`rect["width"]`). -/
def Dom.rw : Dom → Nat
  | .node _ _ _ w _ _ => w

/-- Height of the element's bounding rectangle (`rect["height"]`). -/
def Dom.rh : Dom → Nat
  | .node _ _ _ _ h _ => h

mutual

/-- Own text of every node of the subtree, in document order. -/
def domTextParts : Dom → List String
  | .node _ _ o _ _ ch => o :: domListTextParts ch

/-- Own texts of a forest, in document order. -/
def domListTextParts : DomList → List String
  | .nil => []
  | .cons d ds => domTextParts d ++ domListTextParts ds

end

/-- Rendered text of a subtree (`innerText` / Selenium `.text`): the
non-empty own texts of the subtree in document order, joined by single
spaces. -/
def fullText (d : Dom) : String :=
  ⟨List.intercalate [' '] (((domTextParts d).filter (fun w => !(w == ""))).map String.data)⟩

mutual

/-- Every node of a subtree in document order, paired with its ancestor
chain (nearest ancestor first).  `anc` is the chain of the subtree root. -/
def domNodes (anc : List Dom) : Dom → List (Dom × List Dom)
  | .node t c o w h ch =>
    (.node t c o w h ch, anc) :: domListNodes (.node t c o w h ch :: anc) ch

/-- `domNodes` over a forest. -/
def domListNodes (anc : List Dom) : DomList → List (Dom × List Dom)
  | .nil => []
  | .cons d ds => domNodes anc d ++ domListNodes anc ds

end

/-- All elements of the document with their ancestor chains (`//*`, with
the chain needed for `ancestor::*` steps), in document order. -/
def nodesAnc (doc : Dom) : List (Dom × List Dom) := domNodes [] doc

/-- All elements of the document in document order (`//*`). -/
def nodesOf (doc : Dom) : List Dom := (nodesAnc doc).map Prod.fst

/-- Proper descendants of an element in document order (`.//*`). -/
def descendantsOf (d : Dom) : List Dom := (nodesOf d).drop 1

/-! ## Card location by geometry climb

02.09's popup sibling (04.09, lines 171–182) and the simple variant
(`get_nm_for_site`, unnamed file lines 104–116) climb the ancestor chain
one hop at a time, for at most `hops` (10 resp. 8) iterations, and take the
first ancestor whose rectangle is larger than 220×140.  If the loop ends
with no card, the code falls back to the title's immediate parent.  Asking
the root element for `./ancestor::*[1]` raises `NoSuchElementException`,
which propagates; this is modelled by the `none` results below. -/

/-- The size heuristic of the climb: `width > 220 and height > 140`. -/
def isBig (d : Dom) : Bool := 220 < d.rw && 140 < d.rh

/-- The climb loop over the ancestor chain `A` (nearest first) with `hops`
iterations left.  `none`: a parent lookup raised (chain exhausted);
`some none`: the loop finished with `card = None`; `some (some c)`: the
loop broke at the first big ancestor `c`. -/
def climbLoop : List Dom → Nat → Option (Option Dom)
  | _, 0 => some none
  | [], _ + 1 => none
  | p :: rest, n + 1 => if isBig p then some (some p) else climbLoop rest n

/-- Card selection: first big ancestor within the hop budget, else the
immediate parent; `none` when a parent lookup raised (either during the
climb or because the title element has no parent at all). -/
def locateCard (A : List Dom) (hops : Nat) : Option Dom :=
  match climbLoop A hops with
  | none => none
  | some (some c) => some c
  | some none => A.head?

/-! ## SiteChecker, popup variant (04.09 lines 157–202)

Finds the title by exact normalised text, climbs to a card with 10 hops,
then: (1) run the extractor on the card's full text; (2) run it on each
descendant whose normalised text contains `/` (non-empty stripped text
only).  On failure it raises `TimeoutException` — there is no widened
locator and no whole-document attempt in this variant.  The trace records
which attempts were made, in order. -/

/-- The attempt kinds of the two site-check fallback chains. -/
inductive Attempt where
  | strictLocate
  | widenedLocate
  | cardText
  | slashDescendants
  | allDescendants
  | wholeDocScan
  | partialDivs
deriving DecidableEq

/-- `check_site_batteries` of the popup variant: attempt trace and result
(`none` models the raised `TimeoutException`/`NoSuchElementException`). -/
def check_site_batteries_popup (doc : Dom) (label : String) (et : Nat) :
    List Attempt × Option (Nat × Nat) :=
  match (nodesAnc doc).find? (fun p => normWs p.1.ownText == label) with
  | none => ([.strictLocate], none)
  | some (_, anc) =>
    match locateCard anc 10 with
    | none => ([.strictLocate], none)
    | some card =>
      match extract_exact_ratio (fullText card) et with
      | some r => ([.strictLocate, .cardText], some r)
      | none =>
        match ((((descendantsOf card).filter
              (fun e => (normWs (fullText e)).data.contains '/')).map
            (fun e => pyStrip (fullText e))).filter (fun v => !(v == ""))).findSome?
            (fun v => extract_exact_ratio v et) with
        | some r => ([.strictLocate, .cardText, .slashDescendants], some r)
        | none => ([.strictLocate, .cardText, .slashDescendants], none)

/-! ## SiteChecker, strict 02.09 variant (02.09 lines 178–263)

The locator is case-insensitive containment from the start (there is no
strict exact-text attempt).  The card is the nearest ancestor whose class
contains `container`/`card`/`box` or which is a `div`; if that lookup
fails, the title element itself.  Attempts: card text, every descendant of
the card, then a whole-document scan over elements containing
`/{expected_total}`.  On `TimeoutException` (locator timeout or the
explicit raise) a partial fallback scans `//div[text()]` for labels by
containment and tries the matching card and its descendants. -/

/-- `./ancestor::*[contains(@class,'container') or contains(@class,'card')
or contains(@class,'box') or self::div][1]` with the element itself as
fallback when no such ancestor exists. -/
def classCardAnc (A : List Dom) (e : Dom) : Dom :=
  match A.find? (fun a =>
      hasSubStr "container" a.cls || hasSubStr "card" a.cls ||
      hasSubStr "box" a.cls || a.tag == "div") with
  | some p => p
  | none => e

/-- The partial-match fallback of 02.09 (lines 230–263): over all divs with
direct text whose rendered text contains the label case-insensitively, try
the class-card ancestor's full text and then each of its descendants. -/
def partialDivScan (doc : Dom) (label : String) (et : Nat) : Option (Nat × Nat) :=
  ((nodesAnc doc).filter (fun p => p.1.tag == "div" && !(p.1.ownText == ""))).findSome?
    (fun p =>
      if hasSubStr (lowerStr label) (lowerStr (pyStrip (fullText p.1))) then
        match extract_exact_ratio (fullText (classCardAnc p.2 p.1)) et with
        | some r => some r
        | none => (descendantsOf (classCardAnc p.2 p.1)).findSome?
            (fun e => extract_exact_ratio (fullText e) et)
      else none)

/-- `check_site_batteries` of 02.09: attempt trace and result. -/
def check_site_batteries_0209 (doc : Dom) (label : String) (et : Nat) :
    List Attempt × Option (Nat × Nat) :=
  match (nodesAnc doc).find? (fun p =>
      hasSubStr (lowerStr label) (lowerStr (normWs p.1.ownText))) with
  | none => ([.widenedLocate, .partialDivs], partialDivScan doc label et)
  | some (e, anc) =>
    match extract_exact_ratio (fullText (classCardAnc anc e)) et with
    | some r => ([.widenedLocate, .cardText], some r)
    | none =>
      match (((descendantsOf (classCardAnc anc e)).map
          (fun d => pyStrip (fullText d))).filter
          (fun v => !(v == ""))).findSome? (fun v => extract_exact_ratio v et) with
      | some r => ([.widenedLocate, .cardText, .allDescendants], some r)
      | none =>
        match ((nodesOf doc).filter
            (fun d => hasSubStr ("/" ++ Nat.repr et) (normWs (fullText d)))).findSome?
            (fun d => extract_exact_ratio (pyStrip (fullText d)) et) with
        | some r => ([.widenedLocate, .cardText, .allDescendants, .wholeDocScan], some r)
        | none =>
          ([.widenedLocate, .cardText, .allDescendants, .wholeDocScan, .partialDivs],
            partialDivScan doc label et)

/-! ## Simple variant `get_nm_for_site` (unnamed file, lines 90–150)

Exact title, geometry climb with 8 hops, then candidate texts: every
descendant of the card whose normalised text contains `/` and whose
whitespace-normalised text parses to some `N/M` (first regex match).
Candidates are sorted by `((0 if "/{expected_total}" in txt else 1,
len(txt)), txt, (n, m))`, Python tuple order, and the first one is
returned.  With a static document the settle loop always returns that
first candidate (either by the early-accept break or when the window
expires), so the model returns it directly.  `None` models the raised
`TimeoutException`/`NoSuchElementException`. -/

/-- `parse_ratio(s)`: first match of the ratio regex, as a pair. -/
def parse_ratio (s : String) : Option (Nat × Nat) := (pyFindall s).head?

/-- A scored candidate of `get_nm_for_site`: `(score, txt, val)`. -/
structure Cand where
  score : Nat × Nat
  txt : String
  val : Nat × Nat
deriving DecidableEq

/-- Python `<` on pairs of ints. -/
def pairLtB (a b : Nat × Nat) : Bool :=
  decide (a.1 < b.1) || (a.1 == b.1 && decide (a.2 < b.2))

/-- Python `<` on strings: lexicographic by code point. -/
def charListLt : List Char → List Char → Bool
  | _ :: _, [] => false
  | [], [] => false
  | [], _ :: _ => true
  | a :: as, b :: bs => decide (a.toNat < b.toNat) || (a == b && charListLt as bs)

/-- Python tuple `<` on candidates `(score, txt, val)`. -/
def candLt (a b : Cand) : Bool :=
  pairLtB a.score b.score ||
    (a.score == b.score &&
      (charListLt a.txt.data b.txt.data ||
        (a.txt == b.txt && pairLtB a.val b.val)))

/-- `items.sort(); items[0]`: the earliest minimal element under the
candidate order (Python's sort is stable). -/
def pickBest : List Cand → Option Cand
  | [] => none
  | c :: cs => some (cs.foldl (fun acc x => if candLt x acc then x else acc) c)

/-- `get_nm_for_site(driver, label, expected_total)` on a static document:
`(n, m, txt)` of the best candidate inside the located card. -/
def get_nm_for_site (doc : Dom) (label : String) (et : Nat) :
    Option (Nat × Nat × String) :=
  match (nodesAnc doc).find? (fun p => normWs p.1.ownText == label) with
  | none => none
  | some (_, anc) =>
    match locateCard anc 8 with
    | none => none
    | some card =>
      let items := ((descendantsOf card).filter
          (fun e => (normWs (fullText e)).data.contains '/')).filterMap (fun e =>
        let txt := normWs (fullText e)
        match parse_ratio txt with
        | none => none
        | some v =>
          some ⟨(if hasSubStr ("/" ++ Nat.repr et) txt then 0 else 1, txt.length), txt, v⟩)
      match pickBest items with
      | none => none
      | some c => some (c.val.1, c.val.2, c.txt)

/-! ## CycleRunner `check_all_sites_once` (02.09 lines 267–322, 04.09 lines 206–237)

One pass over the configured sites, in order.  The body of the loop calls
the site checker inside `try`, appends a success entry on a returned
ratio and an error entry on any exception, and always continues with the
next site.  The checker is passed as a function so that the isolation
property is stated for every possible per-site behaviour; `none` models a
raised exception. -/

/-- A configured site: label and expected total. -/
structure Site where
  label : String
  expected_total : Nat
deriving DecidableEq

/-- Outcome of one site check: a parsed ratio or a captured error.
`all_connected` of the Python result dict is the derived `current = total`. -/
inductive Outcome where
  | success (current total : Nat)
  | failure
deriving DecidableEq

/-- One entry of the results list. -/
structure SiteResult where
  site : String
  outcome : Outcome
deriving DecidableEq

/-- Result entry built by the loop body for one site. -/
def mkResult (s : Site) : Option (Nat × Nat) → SiteResult
  | some (n, m) => ⟨s.label, .success n m⟩
  | none => ⟨s.label, .failure⟩

/-- `check_all_sites_once`: one result per site, in order. -/
def check_all_sites_once (check : Site → Option (Nat × Nat)) (sites : List Site) :
    List SiteResult :=
  sites.map (fun s => mkResult s (check s))

/-- The cycle of the popup variant: `check_all_sites_once` over its own
`check_site_batteries`. -/
def runCyclePopup (doc : Dom) (sites : List Site) : List SiteResult :=
  check_all_sites_once
    (fun s => (check_site_batteries_popup doc s.label s.expected_total).2) sites

/-- The cycle of the 02.09 variant. -/
def runCycle0209 (doc : Dom) (sites : List Site) : List SiteResult :=
  check_all_sites_once
    (fun s => (check_site_batteries_0209 doc s.label s.expected_total).2) sites

/-! ## Alerter `popup_disconnected` (04.09 lines 255–293)

Collects a line for every result with `status == "success"` and
`all_connected is False`; if no lines, emits nothing, otherwise a popup
with the lines joined by newlines.  The deficit is `total - current`
(Python int subtraction, possibly negative). -/

/-- One alert line: `f"{site}: {current}/{total} (disconnected: {disc})"`. -/
def popupLine (site : String) (n m : Nat) : String :=
  site ++ ": " ++ Nat.repr n ++ "/" ++ Nat.repr m ++ " (disconnected: "
    ++ Int.repr ((m : Int) - (n : Int)) ++ ")"

/-- The lines of the alert: successes that are not fully connected. -/
def popupLines (results : List SiteResult) : List String :=
  results.filterMap (fun r =>
    match r.outcome with
    | .success n m => if n == m then none else some (popupLine r.site n m)
    | .failure => none)

/-- Join with newlines (`"\n".join(lines)`). -/
def joinNl (lines : List String) : String :=
  ⟨List.intercalate ['\n'] (lines.map String.data)⟩

/-- `popup_disconnected(results)`: the emitted alert message, or `none`
when every site is fully connected or failed. -/
def popup_disconnected (results : List SiteResult) : Option String :=
  match popupLines results with
  | [] => none
  | l :: ls => some (joinNl (l :: ls))

/-! ## MonitorScheduler timing (04.09 lines 303–356, 02.09 lines 406–418) -/

/-- The popup variant's inter-cycle wait (04.09 line 350):
`wait_sec = max(0, interval - int(elapsed))`; the argument is the already
truncated `int(elapsed)`. -/
def waitSecondsPopup (interval elapsedFloor : Int) : Int :=
  max 0 (interval - elapsedFloor)

/-- The 02.09 continuous loop (line 418) sleeps `time.sleep(interval)`
after each cycle, regardless of how long the cycle took. -/
def waitSeconds0209 (interval : Int) (_elapsedFloor : Int) : Int := interval

/-- `sleep_with_stop` (04.09 lines 303–308): sleep in 1-second steps,
checking the STOP marker before each step.  `stop t` tells whether the
marker is present after `t` seconds of waiting; `sleepSteps stop n t` is
the total seconds slept when `n` loop iterations remain and `t` seconds
have already been slept. -/
def sleepSteps (stop : Nat → Bool) : Nat → Nat → Nat
  | 0, t => t
  | n + 1, t => if stop t then t else sleepSteps stop n (t + 1)

/-- Total seconds slept by `sleep_with_stop(wait_seconds)`. -/
def sleep_with_stop (stop : Nat → Bool) (waitSeconds : Nat) : Nat :=
  sleepSteps stop waitSeconds 0

/-! ## Naive variant `check_site_batteries` (04.09 lines 499–549)

The second script embedded in `04.09 ALL site with popup.py` carries an
older, naive checker: wait for a `div` whose direct text contains the
site name (case-sensitive), then for *any* element whose direct text
contains `/{expected_total}`, and re-parse that element's text with the
loose regex `\d+/\d+` (no word boundaries, no whitespace tolerance),
returning the first match as a string — or the raw text when the regex
finds nothing.  On a locator timeout it falls back to partial matching:
over `//div[text()]` whose rendered text contains the site name
case-insensitively, take the nearest ancestor whose class contains
`container`/`card`/`box` (no `self::div` here; a missing ancestor skips
the div), then the first descendant whose direct text contains
`/{expected_total}`.  Its companion `check_all_sites_once` (lines
552–609) splits the returned string on `/` and converts both parts with
`int`, capturing any exception as an error entry. -/

/-- Try `\d+/\d+` at the current position: a maximal digit run, `/`, a
digit run.  Returns the two matched digit runs. -/
def trySearchSimple (l : List Char) : Option (List Char × List Char) :=
  let ds1 := l.takeWhile Char.isDigit
  if ds1.isEmpty then none
  else
    match l.dropWhile Char.isDigit with
    | '/' :: r2 =>
      let ds2 := r2.takeWhile Char.isDigit
      if ds2.isEmpty then none else some (ds1, ds2)
    | _ => none

/-- `re.search(r'\d+/\d+', s)`: the leftmost match's digit runs. -/
def pySearchSimple : List Char → Option (List Char × List Char)
  | [] => none
  | c :: rest =>
    match trySearchSimple (c :: rest) with
    | some p => some p
    | none => pySearchSimple rest

/-- Python `s.split('/')`: split on every slash, keeping empty pieces. -/
def splitOnSlash : List Char → List (List Char)
  | [] => [[]]
  | c :: cs =>
    if c == '/' then [] :: splitOnSlash cs
    else
      match splitOnSlash cs with
      | [] => [[c]]
      | w :: ws => (c :: w) :: ws

/-- Python `int(s)` for the non-negative decimals that occur here:
surrounding whitespace stripped, at least one digit, all digits (signs
and digit-group underscores are not modelled). -/
def pyIntOfString (s : List Char) : Option Nat :=
  let t := ((s.dropWhile isPySpace).reverse.dropWhile isPySpace).reverse
  if !t.isEmpty && t.all Char.isDigit then some (digitsToNat t) else none

/-- The partial-match fallback of the naive checker (04.09 lines
527–548): first matching div with a class-card ancestor and a descendant
whose direct text contains `/{expected_total}`. -/
def naivePartial (doc : Dom) (site_name : String) (et : Nat) : Option String :=
  ((nodesAnc doc).filter (fun p => p.1.tag == "div" && !(p.1.ownText == ""))).findSome?
    (fun p =>
      if hasSubStr (lowerStr site_name) (lowerStr (pyStrip (fullText p.1))) then
        match p.2.find? (fun a =>
            hasSubStr "container" a.cls || hasSubStr "card" a.cls ||
            hasSubStr "box" a.cls) with
        | none => none
        | some parent =>
          match (descendantsOf parent).find?
              (fun d => hasSubStr ("/" ++ Nat.repr et) d.ownText) with
          | none => none
          | some b =>
            match pySearchSimple (pyStrip (fullText b)).data with
            | some (ds1, ds2) => some (⟨ds1⟩ ++ "/" ++ (⟨ds2⟩ : String))
            | none => some (pyStrip (fullText b))
      else none)

/-- The naive `check_site_batteries` (04.09 lines 499–549): the returned
ratio string, the raw element text when the loose regex finds no match,
or `none` for the raised `TimeoutException`. -/
def check_site_batteries_naive (doc : Dom) (site_name : String) (et : Nat) :
    Option String :=
  match (nodesOf doc).find? (fun d => d.tag == "div" && hasSubStr site_name d.ownText) with
  | none => naivePartial doc site_name et
  | some _ =>
    match (nodesOf doc).find? (fun d => hasSubStr ("/" ++ Nat.repr et) d.ownText) with
    | none => naivePartial doc site_name et
    | some batteries =>
      match pySearchSimple (pyStrip (fullText batteries)).data with
      | some (ds1, ds2) => some (⟨ds1⟩ ++ "/" ++ (⟨ds2⟩ : String))
      | none => some (pyStrip (fullText batteries))

/-- Outcome of one naive site check: a parsed ratio, a success entry with
no parsed numbers (`current`/`total` are `None` in the Python dict), or a
captured error. -/
inductive NaiveOutcome where
  | ratioSuccess (current total : Nat)
  | rawSuccess (value : String)
  | failure
deriving DecidableEq

/-- One entry of the naive results list. -/
structure NaiveSiteResult where
  site : String
  outcome : NaiveOutcome
deriving DecidableEq

/-- The loop body of the naive `check_all_sites_once` for one site:
split the returned string on `/`, convert the two parts with `int`; an
unpack or conversion error — like the raised `TimeoutException` — is
captured as an error entry. -/
def naiveResultOf (s : Site) : Option String → NaiveSiteResult
  | none => ⟨s.label, .failure⟩
  | some ratio =>
    if ratio.data.contains '/' then
      match splitOnSlash ratio.data with
      | [a, b] =>
        match pyIntOfString a, pyIntOfString b with
        | some n, some m => ⟨s.label, .ratioSuccess n m⟩
        | _, _ => ⟨s.label, .failure⟩
      | _ => ⟨s.label, .failure⟩
    else ⟨s.label, .rawSuccess ratio⟩

/-- The naive `check_all_sites_once` (04.09 lines 552–609). -/
def check_all_sites_once_naive (doc : Dom) (sites : List Site) : List NaiveSiteResult :=
  sites.map (fun s => naiveResultOf s (check_site_batteries_naive doc s.label s.expected_total))

/-! ## Concrete documents used by witnesses and counterexamples -/

/-- A document for the naive checker: the site name sits in a div and the
first element containing `/66` in its text reads `100/660`. -/
def docNaive : Dom :=
  el "html" "" "" 1000 800
    [el "div" "" "SiteQ" 300 200 [],
     el "span" "" "100/660" 10 10 []]

/-- A card whose only slash text is `3/8`: the simple variant accepts it
even against `expected_total = 66`. -/
def docSimple : Dom :=
  el "html" "" "" 1000 800
    [el "div" "" "" 300 200
      [el "span" "" "SiteX" 10 10 [], el "span" "" "3/8" 10 10 []]]

/-- A well-formed card for `SiteY` showing `65/66`. -/
def docW : Dom :=
  el "html" "" "" 1000 800
    [el "div" "" "" 300 200
      [el "span" "" "SiteY" 10 10 [], el "span" "" "65/66" 10 10 []]]

/-- `SiteZ`'s card holds no ratio, while a neighbouring card shows
`65/66`: the popup checker fails without ever scanning the document. -/
def docNoWide : Dom :=
  el "html" "" "" 1000 800
    [el "div" "" "" 300 200 [el "span" "" "SiteZ" 10 10 []],
     el "div" "" "" 300 200
      [el "span" "" "Other" 10 10 [], el "span" "" "65/66" 10 10 []]]

/-- The title sits directly under a small root: the climb exhausts the
ancestor chain before the hop budget and raises instead of falling back
to the immediate parent (which does contain `65/66`). -/
def rootShallow : Dom :=
  el "div" "" "" 100 100
    [el "span" "" "T" 10 10 [], el "span" "" "65/66" 10 10 []]

/-- A lone big ancestor. -/
def bigCardW : Dom := el "div" "" "" 300 200 []

/-- A lone small ancestor. -/
def smallW : Dom := el "span" "" "" 10 10 []

/-! # Theorems -/

/-! ## Helper lemmas about `pyMax` and `_extract_exact_ratio` -/

theorem pyMax_mem (c : Nat × Nat) (l : List (Nat × Nat)) : pyMax c l ∈ c :: l := by
  induction l generalizing c with
  | nil => simp [pyMax]
  | cons p t ih =>
    rw [pyMax]
    by_cases hc : c.1 < p.1
    · rw [if_pos hc]
      rcases List.mem_cons.mp (ih p) with h1 | h1
      · simp [h1]
      · simp [List.mem_cons, h1]
    · rw [if_neg hc]
      rcases List.mem_cons.mp (ih c) with h1 | h1
      · simp [h1]
      · simp [List.mem_cons, h1]

theorem pyMax_le (c : Nat × Nat) (l : List (Nat × Nat)) :
    ∀ p ∈ c :: l, p.1 ≤ (pyMax c l).1 := by
  induction l generalizing c with
  | nil => intro p hp; rw [List.mem_singleton] at hp; simp [pyMax, hp]
  | cons q t ih =>
    intro p hp
    rw [pyMax]
    have hbase : p.1 ≤ (if c.1 < q.1 then q else c).1 ∨ p ∈ (if c.1 < q.1 then q else c) :: t := by
      rcases List.mem_cons.mp hp with h1 | h1
      · subst h1
        by_cases hc : p.1 < q.1
        · rw [if_pos hc]
          exact Or.inl (by omega)
        · rw [if_neg hc]
          exact Or.inl (le_refl _)
      · rcases List.mem_cons.mp h1 with h2 | h2
        · subst h2
          by_cases hc : c.1 < p.1
          · rw [if_pos hc]
            exact Or.inl (le_refl _)
          · rw [if_neg hc]
            exact Or.inl (by omega)
        · exact Or.inr (List.mem_cons.mpr (Or.inr h2))
    rcases hbase with h1 | h1
    · exact le_trans h1 (ih _ _ (List.mem_cons_self _ _))
    · exact ih _ _ h1

theorem extract_none_iff (text : String) (et : Nat) :
    extract_exact_ratio text et = none ↔ exactPairs text et = [] := by
  by_cases h : text = ""
  · subst h
    constructor <;> intro <;> rfl
  · rw [extract_exact_ratio, if_neg h]
    cases he : exactPairs text et with
    | nil => simp
    | cons e es =>
      constructor
      · intro hn
        split at hn <;> first
          | (split at hn <;> simp_all)
          | simp_all
      · intro hn
        simp at hn

theorem extract_some_spec (text : String) (et n d : Nat)
    (h : extract_exact_ratio text et = some (n, d)) :
    d = et ∧ (n, d) ∈ exactPairs text et ∧
      (sanePairs text et = [] → ∀ p ∈ exactPairs text et, p.1 ≤ n) ∧
      (sanePairs text et ≠ [] →
        (n, d) ∈ sanePairs text et ∧ ∀ p ∈ sanePairs text et, p.1 ≤ n) := by
  rw [extract_exact_ratio] at h
  split at h
  · exact absurd h (by simp)
  split at h
  · exact absurd h (by simp)
  rename_i e es he
  have hsane : sanePairs text et = (e :: es).filter (fun p => decide (p.1 ≤ et)) := by
    rw [sanePairs, he]
  split at h
  · rename_i hf
    rw [Option.some_inj] at h
    have hmem : (n, d) ∈ e :: es := h ▸ pyMax_mem e es
    have hmemE : (n, d) ∈ exactPairs text et := he ▸ hmem
    have hden : d = et := by
      have hmemF : (n, d) ∈ (pyFindall text).filter (fun p => p.2 == et) := by
        simp only [exactPairs] at hmemE
        exact hmemE
      have := List.of_mem_filter hmemF
      simpa using this
    refine ⟨hden, hmemE, ?_, ?_⟩
    · intro _ p hp
      rw [he] at hp
      have hle := pyMax_le e es p hp
      rw [h] at hle
      exact hle
    · intro hne
      rw [hsane, hf] at hne
      exact absurd rfl hne
  · rename_i s ss hf
    rw [Option.some_inj] at h
    have hmem : (n, d) ∈ s :: ss := h ▸ pyMax_mem s ss
    have hmem' : (n, d) ∈ sanePairs text et := by
      rw [hsane, hf]
      exact hmem
    have hmemE : (n, d) ∈ exactPairs text et := by
      have : (n, d) ∈ (e :: es).filter (fun p => decide (p.1 ≤ et)) := hsane ▸ hmem'
      have := List.mem_of_mem_filter this
      rw [he]
      exact this
    have hden : d = et := by
      have hmemF : (n, d) ∈ (pyFindall text).filter (fun p => p.2 == et) := by
        simp only [exactPairs] at hmemE
        exact hmemE
      have := List.of_mem_filter hmemF
      simpa using this
    refine ⟨hden, hmemE, ?_, ?_⟩
    · intro hnil
      rw [hnil] at hmem'
      simp at hmem'
    · intro _
      refine ⟨hmem', ?_⟩
      intro p hp
      rw [hsane, hf] at hp
      have hle := pyMax_le s ss p hp
      rw [h] at hle
      exact hle

theorem extract_denom {text : String} {et n d : Nat}
    (h : extract_exact_ratio text et = some (n, d)) : d = et :=
  (extract_some_spec text et n d h).1

/-! ## Claim C1 — RatioParser selection policy -/

/-- Claim C1: for every text and every `expected_total`,
`_extract_exact_ratio` returns `None` exactly when no regex match `N/D`
of the text has `D = expected_total` (in particular it never returns a
ratio whose denominator differs from `expected_total`); when such matches
exist it returns a pair with the maximum numerator among the matches with
numerator ≤ `expected_total`, or, if that filtered set is empty, with the
maximum numerator among all exact-denominator matches. -/
theorem extract_exact_ratio_policy (text : String) (et : Nat) :
    (extract_exact_ratio text et = none ↔ exactPairs text et = []) ∧
    ∀ n d, extract_exact_ratio text et = some (n, d) →
      d = et ∧ (n, d) ∈ exactPairs text et ∧
        (sanePairs text et = [] → ∀ p ∈ exactPairs text et, p.1 ≤ n) ∧
        (sanePairs text et ≠ [] →
          (n, d) ∈ sanePairs text et ∧ ∀ p ∈ sanePairs text et, p.1 ≤ n) :=
  ⟨extract_none_iff text et, fun n d h => extract_some_spec text et n d h⟩

/-- Witness for C1 at `"99/66 66/66 10/66 40/40"`, `expected_total = 66`:
the extractor answers `66/66`, a member of the sane set that attains the
maximal sane numerator. -/
theorem extract_exact_ratio_policy_witness :
    (66, 66) ∈ sanePairs "99/66 66/66 10/66 40/40" 66 ∧
      ∀ p ∈ sanePairs "99/66 66/66 10/66 40/40" 66, p.1 ≤ 66 :=
  ((extract_exact_ratio_policy "99/66 66/66 10/66 40/40" 66).2 66 66 (by decide)).2.2.2
    (by decide)

/-! ## Claim C9 — empty text and `expected_total = 0` -/

/-- Counterexample for C9: `expected_total = 0` is not rejected; on
`"5/0"` the extractor happily returns a ratio with denominator `0`. -/
theorem extract_zero_total_counterexample :
    extract_exact_ratio "5/0" 0 = some (5, 0) := by decide

/-- Claim C9 as amended: the empty string yields `None` for every
`expected_total`; a call with `expected_total = 0` is not rejected — it is
treated like any other denominator, so a returned ratio has denominator
`0` (still equal to `expected_total`). -/
theorem extract_zero_total_amended :
    (∀ et : Nat, extract_exact_ratio "" et = none) ∧
    ∀ text n d, extract_exact_ratio text 0 = some (n, d) → d = 0 :=
  ⟨fun _ => rfl, fun _ _ _ h => extract_denom h⟩

/-- Witness for the amended C9 at `""`/`66` and `"5/0"`/`0`. -/
theorem extract_zero_total_amended_witness :
    extract_exact_ratio "" 66 = none ∧ 0 = 0 :=
  ⟨extract_zero_total_amended.1 66, extract_zero_total_amended.2 "5/0" 5 0 (by decide)⟩

/-! ## Claim C10 — insane fallback and negative deficit -/

/-- Claim C10: on `"99/66"` with `expected_total = 66` the fallback
returns `99/66` with numerator above the denominator; such a result is
not fully connected, so the alerter lists it, reporting the negative
deficit `66 - 99 = -33`. -/
theorem insane_fallback_negative_deficit :
    extract_exact_ratio "99/66" 66 = some (99, 66) ∧ 66 < 99 ∧
    popup_disconnected [⟨"SiteA", .success 99 66⟩]
      = some "SiteA: 99/66 (disconnected: -33)" ∧
    (66 : Int) - 99 < 0 := by decide

/-! ## Helper lemmas for the denominator invariant -/

theorem findSome?_denom {α : Type} {f : α → Option (Nat × Nat)} {l : List α} {et n m : Nat}
    (hf : ∀ a r s, f a = some (r, s) → s = et)
    (h : l.findSome? f = some (n, m)) : m = et := by
  obtain ⟨a, _, ha⟩ := List.exists_of_findSome?_eq_some h
  exact hf a n m ha

theorem partialDivScan_denom {doc : Dom} {label : String} {et n m : Nat}
    (h : partialDivScan doc label et = some (n, m)) : m = et := by
  rw [partialDivScan] at h
  refine findSome?_denom ?_ h
  intro p r s hp
  split at hp
  · split at hp
    · rename_i r' heq
      rw [Option.some_inj] at hp
      rw [hp] at heq
      exact extract_denom heq
    · exact findSome?_denom (fun e r' s' he => extract_denom he) hp
  · exact absurd hp (by simp)

theorem check_popup_denom {doc : Dom} {label : String} {et n m : Nat}
    (h : (check_site_batteries_popup doc label et).2 = some (n, m)) : m = et := by
  rw [check_site_batteries_popup] at h
  split at h
  · simp at h
  · split at h
    · simp at h
    · split at h
      · rename_i r heq
        simp only at h
        rw [Option.some_inj] at h
        rw [h] at heq
        exact extract_denom heq
      · split at h
        · rename_i r heq
          simp only at h
          rw [Option.some_inj] at h
          rw [h] at heq
          exact findSome?_denom (fun a r' s' ha => extract_denom ha) heq
        · simp at h

theorem check_0209_denom {doc : Dom} {label : String} {et n m : Nat}
    (h : (check_site_batteries_0209 doc label et).2 = some (n, m)) : m = et := by
  rw [check_site_batteries_0209] at h
  split at h
  · simp only at h
    exact partialDivScan_denom h
  · split at h
    · rename_i r heq
      simp only at h
      rw [Option.some_inj] at h
      rw [h] at heq
      exact extract_denom heq
    · split at h
      · rename_i r heq
        simp only at h
        rw [Option.some_inj] at h
        rw [h] at heq
        exact findSome?_denom (fun a r' s' ha => extract_denom ha) heq
      · split at h
        · rename_i r heq
          simp only at h
          rw [Option.some_inj] at h
          rw [h] at heq
          exact findSome?_denom (fun a r' s' ha => extract_denom ha) heq
        · simp only at h
          exact partialDivScan_denom h

theorem runCycle_result {check : Site → Option (Nat × Nat)} {sites : List Site}
    {i : Nat} {s : Site} {r : SiteResult}
    (hs : sites[i]? = some s)
    (hr : (check_all_sites_once check sites)[i]? = some r) :
    r = mkResult s (check s) := by
  rw [check_all_sites_once, List.getElem?_map, hs] at hr
  simpa using hr.symm

theorem runCycle_success_denom {check : Site → Option (Nat × Nat)}
    (hcheck : ∀ s n m, check s = some (n, m) → m = s.expected_total)
    {sites : List Site} {i : Nat} {s : Site} {r : SiteResult}
    (hs : sites[i]? = some s)
    (hr : (check_all_sites_once check sites)[i]? = some r) :
    ∀ n m, r.outcome = .success n m → m = s.expected_total := by
  intro n m hout
  have heq := runCycle_result hs hr
  cases hc : check s with
  | none => rw [heq, hc] at hout; simp [mkResult] at hout
  | some p =>
    obtain ⟨a, b⟩ := p
    rw [heq, hc] at hout
    simp only [mkResult, Outcome.success.injEq] at hout
    obtain ⟨ha, hb⟩ := hout
    rw [← hb]
    exact hcheck s a b hc

/-! ## Claim C2 — denominator invariant of site checks -/

/-- Counterexample for C2: two of the cited checkers can report a ratio
whose denominator differs from the site's `expected_total`.  The naive
checker of the popup file (04.09 lines 499–549) accepts any element whose
direct text contains `/66` and re-parses it with the loose `\d+/\d+`
regex: on a document whose matching element reads `100/660` the cycle
records a Success with total `660 ≠ 66`.  The simple variant
(`get_nm_for_site`) accepts a card whose only ratio text is `3/8` even
when `expected_total = 66`. -/
theorem site_denominator_counterexample :
    check_site_batteries_naive docNaive "SiteQ" 66 = some "100/660" ∧
    check_all_sites_once_naive docNaive [⟨"SiteQ", 66⟩]
      = [⟨"SiteQ", .ratioSuccess 100 660⟩] ∧
    (660 : Nat) ≠ 66 ∧
    get_nm_for_site docSimple "SiteX" 66 = some (3, 8, "3/8") ∧
    (8 : Nat) ≠ 66 := by
  refine ⟨by decide, by decide, by decide, by decide, by decide⟩

/-- Claim C2 as amended: site checks that go through the strict extractor
`_extract_exact_ratio` — the 02.09 `check_site_batteries` — never produce
a ratio whose denominator differs from the site's `expected_total`,
per site check and for every `Success` entry of its cycle; but the other
two cited checkers violate the invariant: the simple variant
(`get_nm_for_site`) only prefers the expected denominator, and the naive
checker (04.09 lines 499–549) re-parses any element containing
`/{expected_total}` with the loose `\d+/\d+` regex, so both can report
a ratio with a different denominator. -/
theorem site_denominator_invariant_amended :
    (∀ (doc : Dom) (label : String) (et n m : Nat),
      (check_site_batteries_0209 doc label et).2 = some (n, m) → m = et) ∧
    (∀ (doc : Dom) (sites : List Site) (i : Nat) (s : Site) (r : SiteResult),
      sites[i]? = some s → (runCycle0209 doc sites)[i]? = some r →
      ∀ n m, r.outcome = .success n m → m = s.expected_total) := by
  refine ⟨fun _ _ _ _ _ h => check_0209_denom h, ?_⟩
  intro doc sites i s r hs hr
  rw [runCycle0209] at hr
  exact runCycle_success_denom (fun s' n m hc => check_0209_denom hc) hs hr

/-- Witness for the amended C2 on a one-site cycle of the 02.09 checker
over a document showing `65/66` for `SiteY`. -/
theorem site_denominator_invariant_amended_witness : (66 : Nat) = 66 ∧ (66 : Nat) = 66 :=
  ⟨site_denominator_invariant_amended.1 docW "sitey" 66 65 66 (by decide),
   site_denominator_invariant_amended.2 docW [⟨"sitey", 66⟩] 0 ⟨"sitey", 66⟩
     ⟨"sitey", .success 65 66⟩ rfl (by decide) 65 66 rfl⟩

/-! ## Claim C3 — cycle isolation -/

/-- Claim C3: one cycle produces exactly one result per configured site,
in the configured order; a failing site check is captured as a `Failure`
result for that site, and the result of every site is determined by that
site alone, so one site's failure cannot abort or affect the others. -/
theorem cycle_isolation (check : Site → Option (Nat × Nat)) (sites : List Site) :
    (check_all_sites_once check sites).length = sites.length ∧
    (∀ i : Nat, (check_all_sites_once check sites)[i]?
      = (sites[i]?).map (fun s => mkResult s (check s))) ∧
    (∀ (i : Nat) (s : Site), sites[i]? = some s → check s = none →
      (check_all_sites_once check sites)[i]? = some ⟨s.label, .failure⟩) ∧
    (∀ (i : Nat) (s : Site) (n m : Nat), sites[i]? = some s → check s = some (n, m) →
      (check_all_sites_once check sites)[i]? = some ⟨s.label, .success n m⟩) := by
  refine ⟨by simp [check_all_sites_once], fun i => ?_,
          fun i s hs hc => ?_, fun i s n m hs hc => ?_⟩
  · rw [check_all_sites_once, List.getElem?_map]
  · simp [check_all_sites_once, List.getElem?_map, hs, hc, mkResult]
  · simp [check_all_sites_once, List.getElem?_map, hs, hc, mkResult]

/-- Witness for C3: five sites with a checker that always fails on the
third one — the cycle still has five results, in order, with sites 1, 2,
4, 5 successful and site 3 a captured failure. -/
theorem cycle_isolation_witness :
    (check_all_sites_once
        (fun s => if s.label == "S3" then none else some (s.expected_total, s.expected_total))
        [⟨"S1", 66⟩, ⟨"S2", 40⟩, ⟨"S3", 12⟩, ⟨"S4", 8⟩, ⟨"S5", 66⟩]).length = 5 ∧
    (check_all_sites_once
        (fun s => if s.label == "S3" then none else some (s.expected_total, s.expected_total))
        [⟨"S1", 66⟩, ⟨"S2", 40⟩, ⟨"S3", 12⟩, ⟨"S4", 8⟩, ⟨"S5", 66⟩])[2]?
      = some ⟨"S3", .failure⟩ ∧
    (check_all_sites_once
        (fun s => if s.label == "S3" then none else some (s.expected_total, s.expected_total))
        [⟨"S1", 66⟩, ⟨"S2", 40⟩, ⟨"S3", 12⟩, ⟨"S4", 8⟩, ⟨"S5", 66⟩])[3]?
      = some ⟨"S4", .success 8 8⟩ :=
  ⟨(cycle_isolation
      (fun s => if s.label == "S3" then none else some (s.expected_total, s.expected_total))
      [⟨"S1", 66⟩, ⟨"S2", 40⟩, ⟨"S3", 12⟩, ⟨"S4", 8⟩, ⟨"S5", 66⟩]).1,
   (cycle_isolation
      (fun s => if s.label == "S3" then none else some (s.expected_total, s.expected_total))
      [⟨"S1", 66⟩, ⟨"S2", 40⟩, ⟨"S3", 12⟩, ⟨"S4", 8⟩, ⟨"S5", 66⟩]).2.2.1 2 ⟨"S3", 12⟩ rfl rfl,
   (cycle_isolation
      (fun s => if s.label == "S3" then none else some (s.expected_total, s.expected_total))
      [⟨"S1", 66⟩, ⟨"S2", 40⟩, ⟨"S3", 12⟩, ⟨"S4", 8⟩, ⟨"S5", 66⟩]).2.2.2 3 ⟨"S4", 8⟩ 8 8 rfl rfl⟩

/-! ## Helper lemmas for the attempt traces -/

theorem check_popup_trace (doc : Dom) (label : String) (et : Nat) :
    (check_site_batteries_popup doc label et).1
      ∈ [[Attempt.strictLocate],
         [Attempt.strictLocate, Attempt.cardText],
         [Attempt.strictLocate, Attempt.cardText, Attempt.slashDescendants]] := by
  rw [check_site_batteries_popup]
  split
  · simp
  · split
    · simp
    · split
      · simp
      · split <;> simp

theorem check_0209_trace (doc : Dom) (label : String) (et : Nat) :
    (check_site_batteries_0209 doc label et).1
      ∈ [[Attempt.widenedLocate, Attempt.partialDivs],
         [Attempt.widenedLocate, Attempt.cardText],
         [Attempt.widenedLocate, Attempt.cardText, Attempt.allDescendants],
         [Attempt.widenedLocate, Attempt.cardText, Attempt.allDescendants,
          Attempt.wholeDocScan],
         [Attempt.widenedLocate, Attempt.cardText, Attempt.allDescendants,
          Attempt.wholeDocScan, Attempt.partialDivs]] := by
  rw [check_site_batteries_0209]
  split
  · simp
  · split
    · simp
    · split
      · simp
      · split <;> simp

/-! ## Claim C4 — order of the widening attempts -/

/-- Counterexample for C4: on a document where `SiteZ`'s card holds no
matching ratio, the popup variant's check fails after the card-text and
slash-descendant attempts without ever trying a widened locator or a
whole-document scan — although the whole-document scan over elements
containing `/66` would have produced `65/66`. -/
theorem attempt_order_counterexample :
    (check_site_batteries_popup docNoWide "SiteZ" 66).2 = none ∧
    (check_site_batteries_popup docNoWide "SiteZ" 66).1
      = [Attempt.strictLocate, Attempt.cardText, Attempt.slashDescendants] ∧
    Attempt.widenedLocate ∉ (check_site_batteries_popup docNoWide "SiteZ" 66).1 ∧
    Attempt.wholeDocScan ∉ (check_site_batteries_popup docNoWide "SiteZ" 66).1 ∧
    ((nodesOf docNoWide).filter
        (fun d => hasSubStr ("/" ++ Nat.repr 66) (normWs (fullText d)))).findSome?
        (fun d => extract_exact_ratio (pyStrip (fullText d)) 66) = some (65, 66) :=
  ⟨rfl, rfl, by decide, by decide, by decide⟩

/-- Claim C4 as amended: each variant's attempts do follow a fixed
narrow-to-wide order with no wider attempt before a narrower one, but the
chains differ from the claimed one.  The popup variant attempts the
exact-label card text, then the card's slash-containing descendants, and
then fails: it never makes a widened-locator or whole-document attempt.
The 02.09 variant locates the label case-insensitively from the start (no
strict exact-text attempt), then card text, then all card descendants,
then the whole-document `/{expected_total}` scan, then the partial-div
fallback. -/
theorem attempt_order_amended (doc : Dom) (label : String) (et : Nat) :
    ((check_site_batteries_popup doc label et).1 = [Attempt.strictLocate] ∨
     (check_site_batteries_popup doc label et).1
       = [Attempt.strictLocate, Attempt.cardText] ∨
     (check_site_batteries_popup doc label et).1
       = [Attempt.strictLocate, Attempt.cardText, Attempt.slashDescendants]) ∧
    List.Sublist (check_site_batteries_popup doc label et).1
      [Attempt.strictLocate, Attempt.cardText, Attempt.slashDescendants] ∧
    Attempt.widenedLocate ∉ (check_site_batteries_popup doc label et).1 ∧
    Attempt.wholeDocScan ∉ (check_site_batteries_popup doc label et).1 ∧
    (check_site_batteries_0209 doc label et).1.head? = some Attempt.widenedLocate ∧
    List.Sublist (check_site_batteries_0209 doc label et).1
      [Attempt.widenedLocate, Attempt.cardText, Attempt.allDescendants,
       Attempt.wholeDocScan, Attempt.partialDivs] ∧
    Attempt.strictLocate ∉ (check_site_batteries_0209 doc label et).1 := by
  have hp := check_popup_trace doc label et
  have h0 := check_0209_trace doc label et
  simp only [List.mem_cons, List.not_mem_nil, or_false] at hp h0
  rcases hp with h | h | h <;> rcases h0 with g | g | g | g | g <;>
    rw [h, g] <;> refine ⟨by decide, by decide, by decide, by decide, by decide, by decide, by decide⟩

/-! ## Claim C8 — the ancestor climb and its fallback -/

theorem climbLoop_eq (A : List Dom) (n : Nat) :
    climbLoop A n =
      match (A.take n).find? isBig with
      | some c => some (some c)
      | none => if n ≤ A.length then some none else none := by
  induction n generalizing A with
  | zero => simp [climbLoop]
  | succ k ih =>
    cases A with
    | nil => simp [climbLoop]
    | cons p rest =>
      rw [climbLoop]
      by_cases hb : isBig p
      · rw [if_pos hb, List.take_succ_cons, List.find?_cons_of_pos _ hb]
      · rw [if_neg hb, ih rest, List.take_succ_cons, List.find?_cons_of_neg _ (by simp [hb])]
        cases hf : (rest.take k).find? isBig with
        | some c => rfl
        | none => simp [List.length_cons, Nat.succ_le_succ_iff]

/-- Claim C8 as amended: the climb inspects at most `hops` ancestors
(10 in the popup variant, 8 in the simple variant) and selects the first
one whose rectangle exceeds 220×140; if the hop budget runs out with no
qualifying ancestor, it falls back to the immediate parent; but if the
ancestor chain is exhausted *before* the budget without a qualifying
ancestor, the next parent lookup raises and the card location fails
instead of falling back. -/
theorem climb_fallback_amended (A : List Dom) (n : Nat) :
    (∀ c : Dom, (A.take n).find? isBig = some c → locateCard A n = some c) ∧
    ((A.take n).find? isBig = none → n ≤ A.length → locateCard A n = A.head?) ∧
    ((A.take n).find? isBig = none → A.length < n → locateCard A n = none) := by
  refine ⟨fun c hc => ?_, fun hn hle => ?_, fun hn hlt => ?_⟩
  · rw [locateCard, climbLoop_eq, hc]
  · rw [locateCard, climbLoop_eq, hn]
    simp [hle]
  · rw [locateCard, climbLoop_eq, hn]
    rw [if_neg (by omega)]

/-- Witness for the amended C8: a big immediate parent is selected; a
chain of ten small ancestors falls back to the immediate parent; a single
small ancestor (chain exhausted before the budget) makes the climb fail. -/
theorem climb_fallback_amended_witness :
    locateCard [bigCardW] 10 = some bigCardW ∧
    locateCard (List.replicate 10 smallW) 10 = (List.replicate 10 smallW).head? ∧
    locateCard [smallW] 10 = none :=
  ⟨(climb_fallback_amended [bigCardW] 10).1 bigCardW rfl,
   (climb_fallback_amended (List.replicate 10 smallW) 10).2.1 rfl (by decide),
   (climb_fallback_amended [smallW] 10).2.2 rfl (by decide)⟩

/-- Counterexample for C8: with the title directly under a small root the
ancestor chain is exhausted on the second hop, the parent lookup raises
and the whole site check fails — the code does not fall back to the
immediate parent, although that parent's text contains `65/66`. -/
theorem climb_fallback_counterexample :
    (check_site_batteries_popup rootShallow "T" 66).2 = none ∧
    (check_site_batteries_popup rootShallow "T" 66).1 = [Attempt.strictLocate] ∧
    locateCard [rootShallow] 10 = none ∧
    [rootShallow].head? = some rootShallow ∧
    extract_exact_ratio (fullText rootShallow) 66 = some (65, 66) :=
  ⟨rfl, rfl, rfl, rfl, by decide⟩

/-! ## Claim C5 — alert policy -/

theorem popupLines_mem (results : List SiteResult) (l : String) :
    l ∈ popupLines results ↔
      ∃ r ∈ results, ∃ n m, r.outcome = .success n m ∧ n ≠ m
        ∧ l = popupLine r.site n m := by
  rw [popupLines, List.mem_filterMap]
  constructor
  · rintro ⟨r, hr, hf⟩
    refine ⟨r, hr, ?_⟩
    cases ho : r.outcome with
    | success n m =>
      rw [ho] at hf
      by_cases hnm : n = m
      · simp [hnm] at hf
      · refine ⟨n, m, rfl, hnm, ?_⟩
        have hbe : (n == m) = false := by simpa using hnm
        simp only [hbe, Bool.false_eq_true, if_false, Option.some_inj] at hf
        exact hf.symm
    | failure => rw [ho] at hf; simp at hf
  · rintro ⟨r, hr, n, m, ho, hnm, hl⟩
    refine ⟨r, hr, ?_⟩
    rw [ho]
    have hbe : (n == m) = false := by simpa using hnm
    simp only [hbe, Bool.false_eq_true, if_false, Option.some_inj]
    exact hl.symm

theorem popup_isSome_iff (results : List SiteResult) :
    (popup_disconnected results).isSome ↔
      ∃ r ∈ results, ∃ n m, r.outcome = .success n m ∧ n ≠ m := by
  rw [popup_disconnected]
  cases hl : popupLines results with
  | nil =>
    constructor
    · intro h
      simp at h
    · rintro ⟨r, hr, n, m, ho, hnm⟩
      have hm : popupLine r.site n m ∈ popupLines results :=
        (popupLines_mem results _).mpr ⟨r, hr, n, m, ho, hnm, rfl⟩
      rw [hl] at hm
      simp at hm
  | cons a as =>
    constructor
    · intro _
      have hm : a ∈ popupLines results := by
        rw [hl]
        exact List.mem_cons_self a as
      obtain ⟨r, hr, n, m, ho, hnm, _⟩ := (popupLines_mem results a).mp hm
      exact ⟨r, hr, n, m, ho, hnm⟩
    · intro _
      simp

/-- Claim C5: the alerter emits an event iff some result is a `Success`
with numerator ≠ denominator; the emitted lines are exactly one line per
such site (with its numerator, denominator and Python deficit
`total - current` baked into `popupLine`); `Failure` results never
contribute a line. -/
theorem alert_policy (results : List SiteResult) :
    ((popup_disconnected results).isSome ↔
      ∃ r ∈ results, ∃ n m, r.outcome = .success n m ∧ n ≠ m) ∧
    (∀ (r : SiteResult) (n m : Nat), r ∈ results → r.outcome = .success n m → n ≠ m →
      popupLine r.site n m ∈ popupLines results) ∧
    (∀ l ∈ popupLines results, ∃ r ∈ results, ∃ n m,
      r.outcome = .success n m ∧ n ≠ m ∧ l = popupLine r.site n m) :=
  ⟨popup_isSome_iff results,
   fun r n m hr ho hnm => (popupLines_mem results _).mpr ⟨r, hr, n, m, ho, hnm, rfl⟩,
   fun l hl => (popupLines_mem results l).mp hl⟩

/-- Witness for C5 on a three-site cycle: the disconnected site `A`
(65/66) is listed; the failed site `B` and the fully connected site `C`
produce no line. -/
theorem alert_policy_witness :
    popupLine "A" 65 66
      ∈ popupLines [⟨"A", .success 65 66⟩, ⟨"B", .failure⟩, ⟨"C", .success 40 40⟩] ∧
    popupLines [⟨"A", .success 65 66⟩, ⟨"B", .failure⟩, ⟨"C", .success 40 40⟩]
      = ["A: 65/66 (disconnected: 1)"] :=
  ⟨(alert_policy [⟨"A", .success 65 66⟩, ⟨"B", .failure⟩, ⟨"C", .success 40 40⟩]).2.1
      ⟨"A", .success 65 66⟩ 65 66 (by decide) rfl (by decide),
   by decide⟩

/-! ## Claim C6 — inter-cycle wait -/

/-- Counterexample for C6: the 02.09 continuous loop sleeps the full
interval regardless of the cycle time — with `interval = 300` and a
cycle that took 100 seconds it waits 300 seconds, not
`max(0, 300 - 100) = 200`. -/
theorem wait_cadence_counterexample :
    waitSeconds0209 300 100 ≠ max 0 (300 - 100) := by decide

/-- Claim C6 as amended: in the popup variant the wait before the next
cycle is `max(0, interval - ⌊cycleElapsed⌋)` — the interval is a target
cadence, so elapsed time plus wait equals the interval whenever the cycle
fits into it, and the wait is zero once the cycle overruns — but in the
02.09 continuous mode the sleep is the full interval on top of the cycle
time. -/
theorem wait_cadence_amended (interval elapsed : Int) :
    (0 ≤ elapsed → elapsed ≤ interval →
      elapsed + waitSecondsPopup interval elapsed = interval) ∧
    (interval ≤ elapsed → waitSecondsPopup interval elapsed = 0) ∧
    waitSeconds0209 interval elapsed = interval := by
  refine ⟨fun h0 hle => ?_, fun hge => ?_, rfl⟩
  · rw [waitSecondsPopup]
    omega
  · rw [waitSecondsPopup]
    omega

/-- Witness for the amended C6 at `interval = 10`, `elapsed = 3` and
`interval = 10`, `elapsed = 12`. -/
theorem wait_cadence_amended_witness :
    (3 : Int) + waitSecondsPopup 10 3 = 10 ∧ waitSecondsPopup 10 12 = 0 :=
  ⟨(wait_cadence_amended 10 3).1 (by decide) (by decide),
   (wait_cadence_amended 10 12).2.1 (by decide)⟩

/-! ## Claim C7 — stop-signal polling granularity -/

theorem sleepSteps_le (stop : Nat → Bool) (n t : Nat) :
    sleepSteps stop n t ≤ t + n := by
  induction n generalizing t with
  | zero => simp [sleepSteps]
  | succ k ih =>
    rw [sleepSteps]
    by_cases hs : stop t
    · rw [if_pos hs]
      omega
    · rw [if_neg hs]
      have := ih (t + 1)
      omega

theorem sleepSteps_stop (stop : Nat → Bool) (n t s : Nat)
    (hts : t ≤ s) (hs : stop s = true) : sleepSteps stop n t ≤ s := by
  induction n generalizing t with
  | zero => simpa [sleepSteps] using hts
  | succ k ih =>
    rw [sleepSteps]
    by_cases ht : stop t
    · rw [if_pos ht]
      exact hts
    · rw [if_neg ht]
      refine ih (t + 1) ?_
      rcases Nat.lt_or_ge t s with h | h
      · omega
      · have : t = s := by omega
        rw [this] at ht
        exact absurd hs ht
  -- the remaining case is impossible: `stop t = false` but `stop s = true`

theorem sleepSteps_full (stop : Nat → Bool) (n t : Nat)
    (h : ∀ u, t ≤ u → u < t + n → stop u = false) : sleepSteps stop n t = t + n := by
  induction n generalizing t with
  | zero => simp [sleepSteps]
  | succ k ih =>
    rw [sleepSteps, if_neg (by simp [h t (le_refl t) (by omega)])]
    have := ih (t + 1) (fun u hu1 hu2 => h u (by omega) (by omega))
    omega

/-- Claim C7: `sleep_with_stop` decomposes the wait into 1-second steps
and checks the stop marker before every step: the total sleep never
exceeds the requested wait; if the marker is present after `s` seconds of
waiting the loop sleeps at most `s` seconds (it exits at that check
rather than sleeping out the remaining interval); and with no marker the
full wait is slept. -/
theorem stop_poll_granularity (stop : Nat → Bool) (w : Nat) :
    sleep_with_stop stop w ≤ w ∧
    (∀ s, stop s = true → sleep_with_stop stop w ≤ s) ∧
    ((∀ t, t < w → stop t = false) → sleep_with_stop stop w = w) := by
  refine ⟨?_, fun s hs => ?_, fun h => ?_⟩
  · have := sleepSteps_le stop w 0
    simpa [sleep_with_stop] using this
  · exact sleepSteps_stop stop w 0 s (Nat.zero_le s) hs
  · have := sleepSteps_full stop w 0 (fun u _ hu => h u (by omega))
    simpa [sleep_with_stop] using this

/-- Witness for C7 with a 10-second wait: a marker appearing after 4
seconds bounds the sleep by 4 seconds; with no marker all 10 seconds are
slept. -/
theorem stop_poll_granularity_witness :
    sleep_with_stop (fun t => decide (4 ≤ t)) 10 ≤ 4 ∧
    sleep_with_stop (fun _ => false) 10 = 10 :=
  ⟨(stop_poll_granularity (fun t => decide (4 ≤ t)) 10).2.1 4 (by decide),
   (stop_poll_granularity (fun _ => false) 10).2.2 (fun t _ => rfl)⟩

/-! ## Sanity checks of the embedding against concrete Python behaviour -/

example : pyFindall "65/66 connected, see also 40/40" = [(65, 66), (40, 40)] := by decide
example : pyFindall "1/2/3" = [(1, 2)] := by decide
example : pyFindall "a12/5 12/5b x99/66" = [] := by decide
example : pyFindall "12 / 12" = [(12, 12)] := by decide
example : extract_exact_ratio "65/66 connected, see also 40/40" 66 = some (65, 66) := by decide
example : extract_exact_ratio "40/40" 66 = none := by decide
example : extract_exact_ratio "99/66 66/66" 66 = some (66, 66) := by decide
example : extract_exact_ratio "99/66" 66 = some (99, 66) := by decide
example : extract_exact_ratio "" 7 = none := by decide
example : extract_exact_ratio "5/0" 0 = some (5, 0) := by decide
example : pyFindall "3.5/66" = [(5, 66)] := by decide
example : pyFindall "-5/66" = [(5, 66)] := by decide
example : pyFindall "65/66x" = [] := by decide
example : pyFindall "65/ 66" = [(65, 66)] := by decide
example : pyFindall "007/66" = [(7, 66)] := by decide
example : pyFindall "65//66" = [] := by decide
example : pyFindall "65/66_" = [] := by decide
example : pyFindall "_65/66" = [] := by decide
example : pyFindall "65 / 66 more 66 /66" = [(65, 66), (66, 66)] := by decide
example : extract_exact_ratio "10/66 20/66 99/66" 66 = some (20, 66) := by decide
